import Mathlib

/-!
Verification of the inode file system in `archieves_system.py`.

The Python class `FileSystem` is shallowly embedded as a Lean structure `FS`
together with one Lean function per Python method.  External collaborators are
modelled explicitly:

* the OS identity `os.getlogin()` and the wall clock `time.ctime()` are
  constants (no claim depends on them);
* the byte stream produced by `pickle.dump` is an explicit function parameter
  `ser : Pickler`; the only facts about real pickle that any theorem uses are
  that the stream is non-empty and begins with the protocol marker byte `0x80`,
  which holds for every pickle stream of protocol 2 or newer;
* the backing image `disco.img` is a total byte map `Nat → Nat`;
* the result of `pickle.load` at startup is a parameter of `fs_init`
  (`none` models the caught deserialization failures).

File content is modelled as a list of byte values; the embedding covers
single-byte characters, for which Python's character slicing in
`create_file`/`read_file` coincides with byte slicing.
-/

namespace ArchFS

/-- Error kinds named by the specification.  The Python code signals
`RuntimeError("No free blocks available.")` (OutOfSpace),
`RuntimeError("No free i-nodes available.")` (OutOfInodes),
`RuntimeError("... não está vazio.")` (DirectoryNotEmpty) and
`FileNotFoundError` (NotFound); the remaining kinds are listed by the spec
and are available so that theorems can state that they are never produced. -/
inductive Err where
  | NotFound
  | AlreadyExists
  | DirectoryNotEmpty
  | OutOfSpace
  | OutOfInodes
  | TooManySymlinks
  | StorageCorrupt
  deriving DecidableEq, Repr

/-- Configuration: `disk_size = 256 * 1024 * 1024`. -/
def disk_size : Nat := 256 * 1024 * 1024

/-- Configuration: `block_size = 4 * 1024`. -/
def block_size : Nat := 4 * 1024

/-- Configuration: `num_blocks = disk_size // block_size`. -/
def num_blocks : Nat := disk_size / block_size

/-- Configuration: `inode_table_size = 1024`. -/
def inode_table_size : Nat := 1024

/-- Configuration: `bitmap_size = num_blocks`. -/
def bitmap_size : Nat := num_blocks

/-- Model of `os.getlogin()` — the OS-level identity of the current user is an external
collaborator; it is modelled as a fixed string. -/
def os_getlogin : String := "user"

/-- Model of `time.ctime()` — the wall clock is external; modelled as a fixed string. -/
def time_ctime : String := "Thu Jan  1 00:00:00 1970"

/-- An i-node record, mirroring the Python dict created by `create_file`,
`create_symlink` and `create_directory`.  The keys `target` and `contents`
are present only on symlink and directory records respectively, hence the
`Option` types defaulting to `none`. -/
structure Inode where
  name : String
  owner : String
  size : Nat
  creation_time : String
  modification_time : String
  permissions : String
  blocks : List Nat
  type : String
  target : Option String := none
  contents : Option (List String) := none
  deriving DecidableEq, Repr

/-- The pair `(self.bitmap, self.inode_table)` that `save_disk` pickles. -/
abbrev Metadata := List Nat × List (Option Inode)

/-- A model of `pickle.dump` restricted to the metadata pair: a function from
the metadata to the byte stream written at offset 0 of the image. -/
abbrev Pickler := Metadata → List Nat

/-- The in-memory state of the Python `FileSystem` object together with the
bytes of the backing image `disco.img` (a total byte map). -/
structure FS where
  bitmap : List Nat
  inode_table : List (Option Inode)
  cwd : Nat
  disk : Nat → Nat

/-- Model of `f.seek(pos); f.write(bytes)` on the image: overwrite `bytes.length`
bytes starting at offset `pos`. -/
def write_disk (d : Nat → Nat) (pos : Nat) (bytes : List Nat) : Nat → Nat :=
  fun off => if pos ≤ off ∧ off < pos + bytes.length then bytes.getD (off - pos) 0 else d off

/-- Model of `f.seek(pos); f.read(n)` on the image: the `n` bytes starting at `pos`. -/
def disk_read (d : Nat → Nat) (pos : Nat) : Nat → List Nat
  | 0 => []
  | n + 1 => d pos :: disk_read d (pos + 1) n

/-- Method `save_disk`: seek to offset 0 and pickle `(bitmap, inode_table)` there.
Only the image changes; the in-memory metadata is untouched. -/
def save_disk (ser : Pickler) (fs : FS) : FS :=
  { fs with disk := write_disk fs.disk 0 (ser (fs.bitmap, fs.inode_table)) }

/-- Method `format_disk`: rewrite the image with `disk_size` zero bytes, then
`save_disk`.  The in-memory bitmap and inode table are not reset here
(they are fresh in both callers). -/
def format_disk (ser : Pickler) (fs : FS) : FS :=
  save_disk ser { fs with disk := fun _ => 0 }

/-- The state built by the first three lines of `__init__`:
`bitmap = [0] * num_blocks`, `inode_table = [None] * inode_table_size`,
`cwd = 0`, over the pre-existing image bytes `d0`. -/
def fresh_fs (d0 : Nat → Nat) : FS :=
  { bitmap := List.replicate num_blocks 0
    inode_table := List.replicate inode_table_size none
    cwd := 0
    disk := d0 }

/-- Constructor `__init__`: if no image exists, format; otherwise try `load_disk`.
`load_result` models the outcome of `pickle.load` on the existing image:
`some m` is successfully deserialized metadata, `none` is a failure of one of
the caught kinds (`pickle.UnpicklingError`, `UnicodeDecodeError`), in which
case the code prints a message and reformats.  No branch reports an error. -/
def fs_init (ser : Pickler) (disk_exists : Bool) (load_result : Option Metadata)
    (d0 : Nat → Nat) : FS × Option Err :=
  let fs := fresh_fs d0
  if disk_exists then
    match load_result with
    | some m => ({ fs with bitmap := m.1, inode_table := m.2 }, none)
    | none => (format_disk ser fs, none)
  else (format_disk ser fs, none)

/-- The scan inside `allocate_block`: index of the first bitmap entry equal
to `0`, if any. -/
def find_free : List Nat → Option Nat
  | [] => none
  | b :: rest => if b = 0 then some 0 else (find_free rest).map (· + 1)

/-- Method `free_block`: clear one bitmap entry. -/
def free_block (bm : List Nat) (block_index : Nat) : List Nat :=
  bm.set block_index 0

/-- The scan inside `allocate_inode`: index of the first free (None) slot. -/
def find_free_inode : List (Option Inode) → Option Nat
  | [] => none
  | none :: _ => some 0
  | some _ :: rest => (find_free_inode rest).map (· + 1)

/-- The linear scans `for inode in self.inode_table: if inode and ...` used by
every lookup in the Python code: the first live inode satisfying `p`,
together with its index. -/
def find_by (p : Inode → Bool) : List (Option Inode) → Option (Nat × Inode)
  | [] => none
  | none :: rest => (find_by p rest).map (fun r => (r.1 + 1, r.2))
  | some n :: rest =>
      if p n then some (0, n)
      else (find_by p rest).map (fun r => (r.1 + 1, r.2))

/-- The `while len(content) > 0` loop of `create_file`: repeatedly allocate a
block, write the next `block_size` bytes of `content` at that block's offset,
and record the block index.  Returns the updated bitmap and image, the block
list, and `true` on success / `false` when `allocate_block` found no free
block (in Python the `RuntimeError` escapes with the bitmap and image already
mutated by the completed iterations). -/
def write_loop (bm : List Nat) (d : Nat → Nat) (content : List Nat) (blocks : List Nat) :
    List Nat × (Nat → Nat) × List Nat × Bool :=
  match content with
  | [] => (bm, d, blocks, true)
  | x :: rest =>
    match find_free bm with
    | none => (bm, d, blocks, false)
    | some i =>
        write_loop (bm.set i 1) (write_disk d (i * block_size) ((x :: rest).take block_size))
          ((x :: rest).drop block_size) (blocks ++ [i])
  termination_by content.length
  decreasing_by simp [block_size]; omega

/-- Method `create_file(name, content)`: allocate an inode slot, run the content
loop, store the new inode record, and `save_disk`.  On `OutOfSpace` the
partially updated bitmap and image remain (the exception escapes before the
inode record is stored and before `save_disk`). -/
def create_file (ser : Pickler) (name : String) (content : List Nat) (fs : FS) :
    FS × Option Err :=
  match find_free_inode fs.inode_table with
  | none => (fs, some Err.OutOfInodes)
  | some inode_index =>
    let content_size := content.length
    match write_loop fs.bitmap fs.disk content [] with
    | (bm, d, blocks, true) =>
        let inode : Inode :=
          { name := name
            owner := os_getlogin
            size := content_size
            creation_time := time_ctime
            modification_time := time_ctime
            permissions := "rw-r--r--"
            blocks := blocks
            type := "file" }
        (save_disk ser
          { fs with
            bitmap := bm
            disk := d
            inode_table := fs.inode_table.set inode_index (some inode) }, none)
    | (bm, d, _, false) => ({ fs with bitmap := bm, disk := d }, some Err.OutOfSpace)

/-- The `for block in inode["blocks"]` loop of `read_file`: read each block,
append its first `remaining` bytes, and stop once `remaining` reaches 0. -/
def read_blocks (d : Nat → Nat) (blocks : List Nat) (remaining : Nat) : List Nat :=
  match blocks with
  | [] => []
  | b :: rest =>
    let block_data := disk_read d (b * block_size) block_size
    let chunk := block_data.take remaining
    if remaining - chunk.length = 0 then chunk
    else chunk ++ read_blocks d rest (remaining - chunk.length)

/-- Method `read_file(name)`: find the first live inode with this name and type
`"file"` and concatenate its blocks, truncated to the recorded size; raise
`FileNotFoundError` otherwise.  Symlink records are never matched. -/
def read_file (name : String) (fs : FS) : Except Err (List Nat) :=
  match find_by (fun n => n.name == name && n.type == "file") fs.inode_table with
  | some r => Except.ok (read_blocks fs.disk r.2.blocks r.2.size)
  | none => Except.error Err.NotFound

/-- Method `delete_file(name)`: free each block of the first matching file inode,
clear its slot, and `save_disk`; `FileNotFoundError` when absent. -/
def delete_file (ser : Pickler) (name : String) (fs : FS) : FS × Option Err :=
  match find_by (fun n => n.name == name && n.type == "file") fs.inode_table with
  | some r =>
      (save_disk ser
        { fs with
          bitmap := r.2.blocks.foldl free_block fs.bitmap
          inode_table := fs.inode_table.set r.1 none }, none)
  | none => (fs, some Err.NotFound)

/-- Method `change_directory(dir_name)`: "." is a no-op; ".." prints and stays when
already at the root (inode 0) and otherwise sets the cursor to the root (the
code's comment records the root as the parent in this simplified structure);
any other name moves the cursor to the first matching directory inode, and a
missing name only prints a message — no exception, no state change. -/
def change_directory (dir_name : String) (fs : FS) : FS × Option Err :=
  if dir_name = "." then (fs, none)
  else if dir_name = ".." then
    if fs.cwd = 0 then (fs, none) else ({ fs with cwd := 0 }, none)
  else
    match find_by (fun n => n.name == dir_name && n.type == "directory") fs.inode_table with
    | some r => ({ fs with cwd := r.1 }, none)
    | none => (fs, none)

/-- Method `copy_file(source, destination) = create_file(destination, read_file(source))`;
an exception from `read_file` escapes before any mutation. -/
def copy_file (ser : Pickler) (source destination : String) (fs : FS) : FS × Option Err :=
  match read_file source fs with
  | Except.error e => (fs, some e)
  | Except.ok content => create_file ser destination content fs

/-- Method `rename_file(old_name, new_name)`: update the name of the first matching
file inode in place and `save_disk`. -/
def rename_file (ser : Pickler) (old_name new_name : String) (fs : FS) : FS × Option Err :=
  match find_by (fun n => n.name == old_name && n.type == "file") fs.inode_table with
  | some r =>
      (save_disk ser
        { fs with inode_table := fs.inode_table.set r.1 (some { r.2 with name := new_name }) },
       none)
  | none => (fs, some Err.NotFound)

/-- Method `create_symlink(target, link_name)`: store a symlink record (no blocks,
unresolved target string) and `save_disk`. -/
def create_symlink (ser : Pickler) (target link_name : String) (fs : FS) : FS × Option Err :=
  match find_free_inode fs.inode_table with
  | none => (fs, some Err.OutOfInodes)
  | some inode_index =>
      let inode : Inode :=
        { name := link_name
          owner := os_getlogin
          size := 0
          creation_time := time_ctime
          modification_time := time_ctime
          permissions := "rwxrwxrwx"
          blocks := []
          type := "symlink"
          target := some target }
      (save_disk ser
        { fs with inode_table := fs.inode_table.set inode_index (some inode) }, none)

/-- Method `create_directory(name)`: store a directory record with an empty
`contents` list and `save_disk`.  Nothing ever links the new directory into a
parent, and nothing ever inserts into `contents`. -/
def create_directory (ser : Pickler) (name : String) (fs : FS) : FS × Option Err :=
  match find_free_inode fs.inode_table with
  | none => (fs, some Err.OutOfInodes)
  | some inode_index =>
      let inode : Inode :=
        { name := name
          owner := os_getlogin
          size := 0
          creation_time := time_ctime
          modification_time := time_ctime
          permissions := "rwxr-xr-x"
          blocks := []
          type := "directory"
          contents := some [] }
      (save_disk ser
        { fs with inode_table := fs.inode_table.set inode_index (some inode) }, none)

/-- Method `list_directory(name)`: the `contents` list of the first matching
directory inode; `FileNotFoundError` when absent. -/
def list_directory (name : String) (fs : FS) : Except Err (List String) :=
  match find_by (fun n => n.name == name && n.type == "directory") fs.inode_table with
  | some r => Except.ok (r.2.contents.getD [])
  | none => Except.error Err.NotFound

/-- Method `remove_directory(name)`: `RuntimeError` (DirectoryNotEmpty) when the
first matching directory inode has a non-empty `contents` list, otherwise
clear its slot and `save_disk`; `FileNotFoundError` when absent. -/
def remove_directory (ser : Pickler) (name : String) (fs : FS) : FS × Option Err :=
  match find_by (fun n => n.name == name && n.type == "directory") fs.inode_table with
  | some r =>
      if 0 < (r.2.contents.getD []).length then (fs, some Err.DirectoryNotEmpty)
      else
        (save_disk ser { fs with inode_table := fs.inode_table.set r.1 none }, none)
  | none => (fs, some Err.NotFound)

/-- The operation surface of the `FileSystem` class, used to define the
reachable states. -/
inductive Op where
  | createFile (name : String) (content : List Nat)
  | deleteFile (name : String)
  | readFile (name : String)
  | copyFile (source destination : String)
  | renameFile (old_name new_name : String)
  | createSymlink (target link_name : String)
  | createDirectory (name : String)
  | listDirectory (name : String)
  | removeDirectory (name : String)
  | changeDirectory (dir_name : String)

/-- Run one operation; the read-only operations leave the state unchanged and
surface their error, mirroring an exception crossing the method boundary. -/
def apply_op (ser : Pickler) (op : Op) (fs : FS) : FS × Option Err :=
  match op with
  | Op.createFile n c => create_file ser n c fs
  | Op.deleteFile n => delete_file ser n fs
  | Op.readFile n =>
      match read_file n fs with
      | Except.ok _ => (fs, none)
      | Except.error e => (fs, some e)
  | Op.copyFile s t => copy_file ser s t fs
  | Op.renameFile a b => rename_file ser a b fs
  | Op.createSymlink t l => create_symlink ser t l fs
  | Op.createDirectory n => create_directory ser n fs
  | Op.listDirectory n =>
      match list_directory n fs with
      | Except.ok _ => (fs, none)
      | Except.error e => (fs, some e)
  | Op.removeDirectory n => remove_directory ser n fs
  | Op.changeDirectory n => change_directory n fs

/-- The state of a freshly formatted system (startup with no image). -/
def init_fs (ser : Pickler) : FS := (fs_init ser false none (fun _ => 0)).1

/-- One operation step, error or not (an exception leaves the mutated object
behind in Python, so failed operations are steps too). -/
def Step (ser : Pickler) (a b : FS) : Prop := ∃ op : Op, (apply_op ser op a).1 = b

/-- States reachable from a fresh format by any sequence of operations. -/
def Reachable (ser : Pickler) (fs : FS) : Prop :=
  Relation.ReflTransGen (Step ser) (init_fs ser) fs

/-- One operation step that did not fail with `OutOfSpace`. -/
def GoodStep (ser : Pickler) (a b : FS) : Prop :=
  ∃ op : Op, (apply_op ser op a).1 = b ∧ (apply_op ser op a).2 ≠ some Err.OutOfSpace

/-- States reachable from a fresh format without any `OutOfSpace` failure. -/
def ReachableGood (ser : Pickler) (fs : FS) : Prop :=
  Relation.ReflTransGen (GoodStep ser) (init_fs ser) fs

/-- The block list of an optional inode slot (empty for a free slot). -/
def inode_blocks : Option Inode → List Nat
  | some n => n.blocks
  | none => []

/-- All block indices referenced by live inodes, with multiplicity. -/
def all_blocks (tab : List (Option Inode)) : List Nat :=
  (tab.map inode_blocks).flatten

/-- The block-accounting invariant of the spec: the bitmap marks exactly the
blocks referenced by live inodes, every referenced block is in range, and no
block is referenced twice. -/
def block_ok (bm : List Nat) (tab : List (Option Inode)) : Prop :=
  bm.length = num_blocks ∧
  (∀ b ∈ all_blocks tab, b < num_blocks) ∧
  (∀ b, b < num_blocks → (bm.getD b 0 = 1 ↔ b ∈ all_blocks tab)) ∧
  (all_blocks tab).Nodup

/-- Directory records in this code are created with `contents = []` and
`blocks = []` and never mutated; this is the shape every live directory
inode keeps. -/
def dir_ok (tab : List (Option Inode)) : Prop :=
  ∀ n : Inode, some n ∈ tab → n.type = "directory" →
    n.contents = some [] ∧ n.blocks = []

/-- Combined state invariant. -/
def Inv (fs : FS) : Prop := dir_ok fs.inode_table ∧ block_ok fs.bitmap fs.inode_table

/-- A concrete pickler used to instantiate witnesses: a fixed two-byte stream
beginning with the pickle protocol marker `0x80`. -/
def triv_ser : Pickler := fun _ => [128, 5]

/-! ### Basic lemmas about the scans and the bitmap -/

theorem find_by_eq_none {p : Inode → Bool} {tab : List (Option Inode)} :
    find_by p tab = none ↔ ∀ n : Inode, some n ∈ tab → p n = false := by
  induction tab with
  | nil => simp [find_by]
  | cons o rest ih =>
    cases o with
    | none => simpa [find_by] using ih
    | some n =>
      by_cases h : p n <;> simp [find_by, h, ih]

theorem find_by_some {p : Inode → Bool} {tab : List (Option Inode)} {r : Nat × Inode}
    (h : find_by p tab = some r) : tab[r.1]? = some (some r.2) ∧ p r.2 = true := by
  induction tab generalizing r with
  | nil => simp [find_by] at h
  | cons o rest ih =>
    cases o with
    | none =>
      rw [find_by] at h
      cases hfb : find_by p rest with
      | none => rw [hfb] at h; simp at h
      | some r' =>
        rw [hfb] at h
        simp only [Option.map_some', Option.some.injEq] at h
        subst h
        obtain ⟨h1, h2⟩ := ih hfb
        simpa using ⟨h1, h2⟩
    | some n =>
      by_cases hp : p n
      · rw [find_by, if_pos hp] at h
        simp only [Option.some.injEq] at h
        subst h
        simpa using hp
      · rw [find_by, if_neg hp] at h
        cases hfb : find_by p rest with
        | none => rw [hfb] at h; simp at h
        | some r' =>
          rw [hfb] at h
          simp only [Option.map_some', Option.some.injEq] at h
          subst h
          obtain ⟨h1, h2⟩ := ih hfb
          simpa using ⟨h1, h2⟩

theorem find_free_inode_some {tab : List (Option Inode)} {i : Nat}
    (h : find_free_inode tab = some i) : tab[i]? = some none := by
  induction tab generalizing i with
  | nil => simp [find_free_inode] at h
  | cons o rest ih =>
    cases o with
    | none =>
      simp only [find_free_inode, Option.some.injEq] at h
      subst h
      simp
    | some n =>
      rw [find_free_inode] at h
      cases hfi : find_free_inode rest with
      | none => rw [hfi] at h; simp at h
      | some i' =>
        rw [hfi] at h
        simp only [Option.map_some', Option.some.injEq] at h
        subst h
        simpa using ih hfi

theorem find_free_inode_replicate {k : Nat} (h : 0 < k) :
    find_free_inode (List.replicate k (none : Option Inode)) = some 0 := by
  cases k with
  | zero => omega
  | succ k => simp [List.replicate_succ, find_free_inode]

theorem find_free_some {bm : List Nat} {i : Nat}
    (h : find_free bm = some i) : bm[i]? = some 0 := by
  induction bm generalizing i with
  | nil => simp [find_free] at h
  | cons b rest ih =>
    by_cases hb : b = 0
    · rw [find_free, if_pos hb] at h
      simp only [Option.some.injEq] at h
      subst h hb
      simp
    · rw [find_free, if_neg hb] at h
      cases hff : find_free rest with
      | none => rw [hff] at h; simp at h
      | some i' =>
        rw [hff] at h
        simp only [Option.map_some', Option.some.injEq] at h
        subst h
        simpa using ih hff

theorem find_free_replicate_zero {k : Nat} (h : 0 < k) :
    find_free (List.replicate k 0) = some 0 := by
  cases k with
  | zero => omega
  | succ k => simp [List.replicate_succ, find_free]

theorem find_free_replicate_one (k : Nat) :
    find_free (List.replicate k 1) = none := by
  induction k with
  | zero => simp [find_free]
  | succ k ih => simp [List.replicate_succ, find_free, ih]

theorem not_some_mem_replicate {k : Nat} {n : Inode}
    (h : some n ∈ List.replicate k (none : Option Inode)) : False := by
  simpa using List.eq_of_mem_replicate h

theorem getD_set (bm : List Nat) (i j v : Nat) :
    (bm.set i v).getD j 0 = if i = j ∧ i < bm.length then v else bm.getD j 0 := by
  simp only [List.getD_eq_getElem?_getD, List.getElem?_set]
  by_cases hij : i = j
  · subst hij
    by_cases hlen : i < bm.length
    · simp [hlen]
    · rw [List.getElem?_eq_none (by omega)]
      simp [hlen]
  · simp [hij]

theorem getD_replicate {k i v : Nat} (h : i < k) :
    (List.replicate k v).getD i 0 = v := by
  simp [List.getD_eq_getElem?_getD, List.getElem?_replicate, h]

theorem getElem?_replicate_zero {α : Type} {k : Nat} {a : α} (h : 0 < k) :
    (List.replicate k a)[0]? = some a := by
  cases k with
  | zero => omega
  | succ k => simp [List.replicate_succ]

/-- If no live inode has the given name, every name-guarded scan fails. -/
theorem find_by_name_none {name : String} {tab : List (Option Inode)}
    (h : ∀ n : Inode, some n ∈ tab → n.name ≠ name) (q : Inode → Bool) :
    find_by (fun n => n.name == name && q n) tab = none :=
  find_by_eq_none.2 (fun n hn => by simp [h n hn])

/-! ### Unfolding lemmas for the content-writing loop -/

theorem write_loop_nil (bm : List Nat) (d : Nat → Nat) (blocks : List Nat) :
    write_loop bm d [] blocks = (bm, d, blocks, true) := by
  rw [write_loop]

theorem write_loop_cons_none {bm : List Nat} (d : Nat → Nat) (x : Nat) (rest blocks : List Nat)
    (h : find_free bm = none) :
    write_loop bm d (x :: rest) blocks = (bm, d, blocks, false) := by
  rw [write_loop, h]

theorem write_loop_cons_some {bm : List Nat} {i : Nat} (d : Nat → Nat) (x : Nat)
    (rest blocks : List Nat) (h : find_free bm = some i) :
    write_loop bm d (x :: rest) blocks =
      write_loop (bm.set i 1) (write_disk d (i * block_size) ((x :: rest).take block_size))
        ((x :: rest).drop block_size) (blocks ++ [i]) := by
  rw [write_loop, h]

/-! ### Claim C2 — reaction to a corrupt backing image -/

/-- C2: the claim says a backing image that fails to deserialize is reported
as `StorageCorrupt` and the disk is never silently reformatted.  The code
does the opposite: `__init__` catches the deserialization failure, prints a
message, and calls `format_disk`, producing exactly the state of a fresh
format and reporting no error — existing user data is discarded. -/
theorem c2_corrupt_image_silently_reformatted (ser : Pickler) (d0 : Nat → Nat) :
    fs_init ser true none d0 = (format_disk ser (fresh_fs d0), none) ∧
    (fs_init ser true none d0).2 ≠ some Err.StorageCorrupt ∧
    fs_init ser true none d0 = fs_init ser false none d0 := by
  refine ⟨rfl, ?_, rfl⟩
  simp [fs_init]

/-! ### Claim C5 — no root inode is ever allocated -/

/-- C5: the claim says startup with no image allocates inode 0 as the root
directory and that inode 0 stays a live directory inode.  In the code,
`format_disk` creates no inode at all: after startup slot 0 holds `None`,
and the very first `create_file` claims slot 0 for a regular file, so inode 0
is not a directory in either state. -/
theorem c5_root_inode_never_allocated (ser : Pickler) (d0 : Nat → Nat) :
    ((fs_init ser false none d0).1.inode_table)[0]? = some none ∧
    ∃ ino : Inode,
      ((create_file ser "f" [] (fs_init ser false none d0).1).1.inode_table)[0]?
          = some (some ino) ∧ ino.type = "file" := by
  have htab : (fs_init ser false none d0).1.inode_table
      = List.replicate inode_table_size none := rfl
  constructor
  · rw [htab]
    exact getElem?_replicate_zero (by decide)
  · have hfind : find_free_inode (fs_init ser false none d0).1.inode_table = some 0 := by
      rw [htab]
      exact find_free_inode_replicate (by decide)
    refine ⟨{ name := "f", owner := os_getlogin, size := 0,
              creation_time := time_ctime, modification_time := time_ctime,
              permissions := "rw-r--r--", blocks := [], type := "file" }, ?_, rfl⟩
    simp only [create_file, hfind, write_loop_nil, save_disk]
    rw [htab]
    rw [List.getElem?_set_self (by rw [List.length_replicate]; decide)]
    simp

/-! ### Claim C6 — the special components "." and ".." -/

/-- C6: `change_directory(".")` never changes the cursor; `".."` at the root
(inode 0) is a no-op that stays at the root; from any other cursor `".."`
moves the cursor to inode 0 — the root, which is the only parent this
simplified design records for a directory (the code's own comment assumes the
root is the first inode and sets it as the parent unconditionally). -/
theorem c6_change_directory_special (fs : FS) :
    change_directory "." fs = (fs, none) ∧
    (fs.cwd = 0 → change_directory ".." fs = (fs, none)) ∧
    (fs.cwd ≠ 0 → change_directory ".." fs = ({ fs with cwd := 0 }, none)) := by
  refine ⟨rfl, ?_, ?_⟩ <;> intro h <;> simp [change_directory, h]

theorem c6_change_directory_special_witness :
    change_directory "." (fresh_fs (fun _ => 0)) = (fresh_fs (fun _ => 0), none) ∧
    change_directory ".." (fresh_fs (fun _ => 0)) = (fresh_fs (fun _ => 0), none) ∧
    change_directory ".." { fresh_fs (fun _ => 0) with cwd := 5 }
      = ({ { fresh_fs (fun _ => 0) with cwd := 5 } with cwd := 0 }, none) :=
  ⟨(c6_change_directory_special _).1,
   (c6_change_directory_special _).2.1 rfl,
   (c6_change_directory_special _).2.2 (by decide)⟩

/-! ### Claim C10 — a missing directory name is silently ignored -/

/-- C10: `change_directory` with a name that is neither "." nor ".." and
matches no live directory inode only prints a message: no exception is
raised and the cursor, bitmap, inode table and image are all unchanged.  By
contrast, the file operations raise `FileNotFoundError` (NotFound) on a
missing name. -/
theorem c10_cd_missing_name_silent (ser : Pickler) (fs : FS) (name : String)
    (h1 : name ≠ ".") (h2 : name ≠ "..")
    (h3 : ∀ n : Inode, some n ∈ fs.inode_table → n.name ≠ name) :
    change_directory name fs = (fs, none) ∧
    delete_file ser name fs = (fs, some Err.NotFound) ∧
    read_file name fs = Except.error Err.NotFound := by
  have hdir := find_by_name_none h3 (fun n => n.type == "directory")
  have hfile := find_by_name_none h3 (fun n => n.type == "file")
  refine ⟨?_, ?_, ?_⟩
  · simp [change_directory, h1, h2, hdir]
  · simp [delete_file, hfile]
  · simp [read_file, hfile]

theorem c10_cd_missing_name_silent_witness :
    change_directory "x" (init_fs triv_ser) = (init_fs triv_ser, none) ∧
    delete_file triv_ser "x" (init_fs triv_ser) = (init_fs triv_ser, some Err.NotFound) ∧
    read_file "x" (init_fs triv_ser) = Except.error Err.NotFound :=
  c10_cd_missing_name_silent triv_ser (init_fs triv_ser) "x" (by decide) (by decide)
    (fun n hn => absurd hn (fun hmem => not_some_mem_replicate hmem))

/-! ### Computation lemmas for creating entries -/

/-- The record `create_file` stores. -/
def file_inode (name : String) (size : Nat) (blocks : List Nat) : Inode :=
  { name := name
    owner := os_getlogin
    size := size
    creation_time := time_ctime
    modification_time := time_ctime
    permissions := "rw-r--r--"
    blocks := blocks
    type := "file" }

/-- The record `create_symlink` stores. -/
def symlink_inode (target link_name : String) : Inode :=
  { name := link_name
    owner := os_getlogin
    size := 0
    creation_time := time_ctime
    modification_time := time_ctime
    permissions := "rwxrwxrwx"
    blocks := []
    type := "symlink"
    target := some target }

/-- The record `create_directory` stores. -/
def dir_inode (name : String) : Inode :=
  { name := name
    owner := os_getlogin
    size := 0
    creation_time := time_ctime
    modification_time := time_ctime
    permissions := "rwxr-xr-x"
    blocks := []
    type := "directory"
    contents := some [] }

theorem create_file_eq {ser : Pickler} {name : String} {c : List Nat} {fs : FS} {i : Nat}
    {bm : List Nat} {d : Nat → Nat} {blocks : List Nat}
    (hi : find_free_inode fs.inode_table = some i)
    (hw : write_loop fs.bitmap fs.disk c [] = (bm, d, blocks, true)) :
    create_file ser name c fs =
      (save_disk ser
        { fs with
          bitmap := bm
          disk := d
          inode_table := fs.inode_table.set i (some (file_inode name c.length blocks)) },
       none) := by
  simp only [create_file, hi, hw, file_inode]

theorem create_file_oos {ser : Pickler} {name : String} {c : List Nat} {fs : FS} {i : Nat}
    {bm : List Nat} {d : Nat → Nat} {blocks : List Nat}
    (hi : find_free_inode fs.inode_table = some i)
    (hw : write_loop fs.bitmap fs.disk c [] = (bm, d, blocks, false)) :
    create_file ser name c fs = ({ fs with bitmap := bm, disk := d }, some Err.OutOfSpace) := by
  simp only [create_file, hi, hw]

theorem create_file_eq_parts (ser : Pickler) {name : String} {c : List Nat} {fs : FS}
    {i : Nat} {bm : List Nat} {d : Nat → Nat} {blocks : List Nat}
    (hi : find_free_inode fs.inode_table = some i)
    (hw : write_loop fs.bitmap fs.disk c [] = (bm, d, blocks, true)) :
    (create_file ser name c fs).1.bitmap = bm ∧
    (create_file ser name c fs).1.inode_table
      = fs.inode_table.set i (some (file_inode name c.length blocks)) ∧
    (create_file ser name c fs).2 = none := by
  rw [create_file_eq hi hw]
  exact ⟨rfl, rfl, rfl⟩

theorem create_file_oos_parts (ser : Pickler) {name : String} {c : List Nat} {fs : FS}
    {i : Nat} {bm : List Nat} {d : Nat → Nat} {blocks : List Nat}
    (hi : find_free_inode fs.inode_table = some i)
    (hw : write_loop fs.bitmap fs.disk c [] = (bm, d, blocks, false)) :
    (create_file ser name c fs).1.bitmap = bm ∧
    (create_file ser name c fs).1.inode_table = fs.inode_table ∧
    (create_file ser name c fs).2 = some Err.OutOfSpace := by
  rw [create_file_oos hi hw]
  exact ⟨rfl, rfl, rfl⟩

theorem create_symlink_eq {ser : Pickler} {target link_name : String} {fs : FS} {i : Nat}
    (hi : find_free_inode fs.inode_table = some i) :
    create_symlink ser target link_name fs =
      (save_disk ser
        { fs with inode_table := fs.inode_table.set i (some (symlink_inode target link_name)) },
       none) := by
  simp only [create_symlink, hi, symlink_inode]

theorem create_directory_eq {ser : Pickler} {name : String} {fs : FS} {i : Nat}
    (hi : find_free_inode fs.inode_table = some i) :
    create_directory ser name fs =
      (save_disk ser
        { fs with inode_table := fs.inode_table.set i (some (dir_inode name)) },
       none) := by
  simp only [create_directory, hi, dir_inode]

theorem set_zero_replicate {α : Type} {k : Nat} (h : 0 < k) (a x : α) :
    (List.replicate k a).set 0 x = x :: List.replicate (k - 1) a := by
  cases k with
  | zero => omega
  | succ k => simp [List.replicate_succ]

theorem find_by_replicate_none (p : Inode → Bool) (k : Nat) :
    find_by p (List.replicate k none) = none :=
  find_by_eq_none.2 (fun _ hn => absurd hn (fun hmem => not_some_mem_replicate hmem))

theorem filterMap_id_replicate_none (k : Nat) :
    (List.replicate k (none : Option Inode)).filterMap id = [] := by
  induction k with
  | zero => rfl
  | succ k ih => simp [List.replicate_succ, ih]

/-- Storing an inode into a free slot permutes the live records up to adding
the new one in front. -/
theorem filterMap_id_set_none {tab : List (Option Inode)} {i : Nat} {n : Inode}
    (h : tab[i]? = some none) :
    ((tab.set i (some n)).filterMap id).Perm (n :: tab.filterMap id) := by
  induction tab generalizing i with
  | nil => simp at h
  | cons o rest ih =>
    cases i with
    | zero =>
      simp only [List.getElem?_cons_zero, Option.some.injEq] at h
      subst h
      simp
    | succ i =>
      simp only [List.getElem?_cons_succ] at h
      cases o with
      | none => simpa using ih h
      | some m =>
        simp only [List.set_cons_succ, List.filterMap_cons_some, id_eq]
        exact ((ih h).cons m).trans (List.Perm.swap n m _)

/-- Number of live inodes carrying a given name. -/
def live_named (name : String) (tab : List (Option Inode)) : Nat :=
  (tab.filterMap id).countP (fun n => n.name == name)

theorem live_named_set_none {tab : List (Option Inode)} {i : Nat} {n : Inode} {name : String}
    (h : tab[i]? = some none) :
    live_named name (tab.set i (some n)) =
      live_named name tab + (if n.name == name then 1 else 0) := by
  rw [live_named, live_named, List.Perm.countP_eq _ (filterMap_id_set_none h),
    List.countP_cons]

theorem live_named_cons_some (n : Inode) (tab : List (Option Inode)) (name : String) :
    live_named name (some n :: tab) =
      live_named name tab + (if n.name == name then 1 else 0) := by
  simp [live_named, List.countP_cons]

theorem live_named_replicate_none (k : Nat) (name : String) :
    live_named name (List.replicate k none) = 0 := by
  simp [live_named, filterMap_id_replicate_none]

/-! ### Concrete two-step scenarios used by counterexamples -/

theorem init_fs_table (ser : Pickler) :
    (init_fs ser).inode_table = List.replicate 1024 none := rfl

theorem init_fs_bitmap (ser : Pickler) :
    (init_fs ser).bitmap = List.replicate 65536 0 := rfl

theorem init_ffi (ser : Pickler) : find_free_inode (init_fs ser).inode_table = some 0 := by
  rw [init_fs_table]
  exact find_free_inode_replicate (by decide)

theorem dupA_table :
    (create_file triv_ser "a" [] (init_fs triv_ser)).1.inode_table
      = some (file_inode "a" 0 []) :: List.replicate 1023 none := by
  rw [create_file_eq (init_ffi triv_ser) (write_loop_nil _ _ _)]
  simp only [save_disk]
  rw [init_fs_table, set_zero_replicate (by decide)]
  norm_num

theorem dupA_err : (create_file triv_ser "a" [] (init_fs triv_ser)).2 = none := by
  rw [create_file_eq (init_ffi triv_ser) (write_loop_nil _ _ _)]

theorem dup_ffi2 :
    find_free_inode (create_file triv_ser "a" [] (init_fs triv_ser)).1.inode_table = some 1 := by
  rw [dupA_table]
  simp [find_free_inode, find_free_inode_replicate (show (0 : Nat) < 1023 by decide)]

theorem dupB_table :
    (create_file triv_ser "a" [] (create_file triv_ser "a" [] (init_fs triv_ser)).1).1.inode_table
      = some (file_inode "a" 0 []) :: some (file_inode "a" 0 [])
          :: List.replicate 1022 none := by
  rw [create_file_eq dup_ffi2 (write_loop_nil _ _ _)]
  simp only [save_disk]
  rw [dupA_table, List.set_cons_succ, set_zero_replicate (by decide)]
  norm_num

theorem dupB_err :
    (create_file triv_ser "a" [] (create_file triv_ser "a" [] (init_fs triv_ser)).1).2
      = none := by
  rw [create_file_eq dup_ffi2 (write_loop_nil _ _ _)]

/-! ### Claim C8 — no duplicate-name check -/

/-- C8 counterexample: on a fresh system, `create_file("a")` twice in a row
succeeds both times (no `AlreadyExists`), leaving two live inodes named
`"a"` — the claim that creation fails when the name is already present, and
that no two live entries share a name, is false at this input. -/
theorem c8_duplicate_names_counterexample :
    (create_file triv_ser "a" [] (create_file triv_ser "a" [] (init_fs triv_ser)).1).2
        ≠ some Err.AlreadyExists ∧
    (create_file triv_ser "a" [] (create_file triv_ser "a" [] (init_fs triv_ser)).1).2
        = none ∧
    live_named "a"
        (create_file triv_ser "a" []
          (create_file triv_ser "a" [] (init_fs triv_ser)).1).1.inode_table = 2 := by
  refine ⟨?_, dupB_err, ?_⟩
  · rw [dupB_err]
    simp
  · rw [dupB_table, live_named_cons_some, live_named_cons_some, live_named_replicate_none]
    simp [file_inode]

/-- C8 amended: `create_file` and `create_directory` perform no duplicate
check at all — they never fail with `AlreadyExists`, and every successful
creation adds one more live inode with the requested name, whether or not
the name is already present in the table. -/
theorem c8_create_never_checks_duplicates (ser : Pickler) (name dname : String)
    (content : List Nat) (fs : FS) :
    (create_file ser name content fs).2 ≠ some Err.AlreadyExists ∧
    (create_directory ser dname fs).2 ≠ some Err.AlreadyExists ∧
    ((create_file ser name content fs).2 = none →
      live_named name (create_file ser name content fs).1.inode_table
        = live_named name fs.inode_table + 1) ∧
    ((create_directory ser dname fs).2 = none →
      live_named dname (create_directory ser dname fs).1.inode_table
        = live_named dname fs.inode_table + 1) := by
  refine ⟨?_, ?_, ?_, ?_⟩
  · cases hfi : find_free_inode fs.inode_table with
    | none => simp [create_file, hfi]
    | some i =>
      rcases hw : write_loop fs.bitmap fs.disk content [] with ⟨bm, d, blks, ok⟩
      cases ok with
      | false =>
        rw [create_file_oos hfi hw]
        simp
      | true =>
        rw [create_file_eq hfi hw]
        simp
  · cases hfi : find_free_inode fs.inode_table with
    | none => simp [create_directory, hfi]
    | some i =>
      rw [create_directory_eq hfi]
      simp
  · intro hsucc
    cases hfi : find_free_inode fs.inode_table with
    | none => simp [create_file, hfi] at hsucc
    | some i =>
      rcases hw : write_loop fs.bitmap fs.disk content [] with ⟨bm, d, blks, ok⟩
      cases ok with
      | false =>
        rw [create_file_oos hfi hw] at hsucc
        simp at hsucc
      | true =>
        rw [create_file_eq hfi hw]
        simp only [save_disk]
        rw [live_named_set_none (find_free_inode_some hfi)]
        simp [file_inode]
  · intro hsucc
    cases hfi : find_free_inode fs.inode_table with
    | none => simp [create_directory, hfi] at hsucc
    | some i =>
      rw [create_directory_eq hfi]
      simp only [save_disk]
      rw [live_named_set_none (find_free_inode_some hfi)]
      simp [dir_inode]

theorem c8_create_never_checks_duplicates_witness :
    live_named "a"
        (create_file triv_ser "a" []
          (create_file triv_ser "a" [] (init_fs triv_ser)).1).1.inode_table
      = live_named "a" (create_file triv_ser "a" [] (init_fs triv_ser)).1.inode_table + 1 ∧
    (create_directory triv_ser "d" (init_fs triv_ser)).2 ≠ some Err.AlreadyExists :=
  ⟨(c8_create_never_checks_duplicates triv_ser "a" "d" []
      (create_file triv_ser "a" [] (init_fs triv_ser)).1).2.2.1 dupB_err,
   (c8_create_never_checks_duplicates triv_ser "a" "d" [] (init_fs triv_ser)).2.1⟩

/-! ### Claim C9 — symlinks are never dereferenced -/

theorem find_by_cons_some_of_false {p : Inode → Bool} {n : Inode} (rest : List (Option Inode))
    (h : p n = false) :
    find_by p (some n :: rest) = (find_by p rest).map (fun r => (r.1 + 1, r.2)) := by
  rw [find_by, if_neg (by simp [h])]

theorem find_by_set_none_false {p : Inode → Bool} {tab : List (Option Inode)} {i : Nat}
    {n : Inode} (hp : p n = false)
    (h : find_by p tab = none) : find_by p (tab.set i (some n)) = none := by
  apply find_by_eq_none.2
  intro m hm
  rcases List.mem_or_eq_of_mem_set hm with hmem | heq
  · exact find_by_eq_none.1 h m hmem
  · cases heq
    exact hp

/-- The scenario of the claim: two symlinks forming a cycle, `A` → `B` and
`B` → `A`, on a fresh system. -/
theorem symA_table :
    (create_symlink triv_ser "B" "A" (init_fs triv_ser)).1.inode_table
      = some (symlink_inode "B" "A") :: List.replicate 1023 none := by
  rw [create_symlink_eq (init_ffi triv_ser)]
  simp only [save_disk]
  rw [init_fs_table, set_zero_replicate (by decide)]

theorem sym_ffi2 :
    find_free_inode (create_symlink triv_ser "B" "A" (init_fs triv_ser)).1.inode_table
      = some 1 := by
  rw [symA_table]
  simp [find_free_inode, find_free_inode_replicate (show (0 : Nat) < 1023 by decide)]

theorem symB_table :
    (create_symlink triv_ser "A" "B"
        (create_symlink triv_ser "B" "A" (init_fs triv_ser)).1).1.inode_table
      = some (symlink_inode "B" "A") :: some (symlink_inode "A" "B")
          :: List.replicate 1022 none := by
  rw [create_symlink_eq sym_ffi2]
  simp only [save_disk]
  rw [symA_table, List.set_cons_succ, set_zero_replicate (by decide)]

/-- C9 counterexample: after building the two-node symlink cycle
`A → B, B → A`, reading `"A"` does not fail with `TooManySymlinks` as the
claim states — it fails with `NotFound`, because `read_file` only ever
matches inodes of type `"file"` and no code path dereferences a symlink. -/
theorem c9_symlink_cycle_counterexample :
    read_file "A"
        (create_symlink triv_ser "A" "B"
          (create_symlink triv_ser "B" "A" (init_fs triv_ser)).1).1
      = Except.error Err.NotFound ∧
    Err.NotFound ≠ Err.TooManySymlinks := by
  constructor
  · have hfind : find_by (fun n => n.name == "A" && n.type == "file")
        (create_symlink triv_ser "A" "B"
          (create_symlink triv_ser "B" "A" (init_fs triv_ser)).1).1.inode_table = none := by
      rw [symB_table,
        find_by_cons_some_of_false _ (by decide),
        find_by_cons_some_of_false _ (by decide),
        find_by_replicate_none]
      rfl
    simp [read_file, hfind]
  · decide

/-- C9 amended: the code contains no path or symlink resolution at all.
`create_symlink` stores the unresolved target string, and `read_file` only
matches inodes of type `"file"`, so reading a symlink's name fails with
`NotFound` (when no file shares the name); every `read_file` call returns
(it is a total function) and none ever produces `TooManySymlinks`. -/
theorem c9_symlinks_never_dereferenced (ser : Pickler) (fs : FS) (target link_name : String)
    (h : find_by (fun n => n.name == link_name && n.type == "file") fs.inode_table = none) :
    read_file link_name (create_symlink ser target link_name fs).1
        = Except.error Err.NotFound ∧
    ∀ anyname : String, read_file anyname fs ≠ Except.error Err.TooManySymlinks := by
  constructor
  · cases hfi : find_free_inode fs.inode_table with
    | none =>
      simp [create_symlink, hfi, read_file, h]
    | some i =>
      have hfind : find_by (fun n => n.name == link_name && n.type == "file")
          (create_symlink ser target link_name fs).1.inode_table = none := by
        rw [create_symlink_eq hfi]
        simp only [save_disk]
        exact find_by_set_none_false (by simp [symlink_inode]) h
      simp [read_file, hfind]
  · intro anyname
    rw [read_file]
    cases hfb : find_by (fun n => n.name == anyname && n.type == "file") fs.inode_table with
    | none => simp
    | some r => simp

theorem c9_symlinks_never_dereferenced_witness :
    read_file "B"
        (create_symlink triv_ser "A" "B"
          (create_symlink triv_ser "B" "A" (init_fs triv_ser)).1).1
      = Except.error Err.NotFound ∧
    read_file "nope" (create_symlink triv_ser "B" "A" (init_fs triv_ser)).1
      ≠ Except.error Err.TooManySymlinks := by
  have h : find_by (fun n => n.name == "B" && n.type == "file")
      (create_symlink triv_ser "B" "A" (init_fs triv_ser)).1.inode_table = none := by
    rw [symA_table, find_by_cons_some_of_false _ (by decide), find_by_replicate_none]
    rfl
  exact ⟨(c9_symlinks_never_dereferenced triv_ser _ "A" "B" h).1,
         (c9_symlinks_never_dereferenced triv_ser _ "A" "B" h).2 "nope"⟩

/-! ### Reading back a one-byte file whose block 0 was overwritten by the
pickled metadata (claims C1 and C3) -/

theorem take_one_disk_read (d : Nat → Nat) (p : Nat) {n : Nat} (h : n ≠ 0) :
    (disk_read d p n).take 1 = [d p] := by
  cases n with
  | zero => omega
  | succ k => rw [disk_read]; rfl

theorem read_blocks_single (d : Nat → Nat) (b : Nat) :
    read_blocks d [b] 1 = [d (b * block_size)] := by
  rw [read_blocks]
  simp only [take_one_disk_read d (b * block_size) (show block_size ≠ 0 by decide)]
  simp [read_blocks]

theorem find_by_cons_some_of_true {p : Inode → Bool} {n : Inode} (rest : List (Option Inode))
    (h : p n = true) : find_by p (some n :: rest) = some (0, n) := by
  rw [find_by, if_pos h]

theorem read_file_found {name : String} {fs : FS} {r : Nat × Inode}
    (h : find_by (fun n => n.name == name && n.type == "file") fs.inode_table = some r) :
    read_file name fs = Except.ok (read_blocks fs.disk r.2.blocks r.2.size) := by
  rw [read_file, h]

theorem write_loop_97 (d : Nat → Nat) :
    write_loop (List.replicate 65536 0) d [97] [] =
      ((List.replicate 65536 0).set 0 1, write_disk d 0 [97], [0], true) := by
  rw [write_loop_cons_some d 97 [] [] (find_free_replicate_zero (by decide))]
  rw [show ([97] : List Nat).take block_size = [97] from rfl]
  rw [show ([97] : List Nat).drop block_size = [] from rfl]
  rw [show 0 * block_size = 0 from rfl]
  rw [write_loop_nil]
  rfl

theorem createA_eq (ser : Pickler) :
    create_file ser "a" [97] (init_fs ser) =
      (save_disk ser
        { init_fs ser with
          bitmap := (List.replicate 65536 0).set 0 1
          disk := write_disk (init_fs ser).disk 0 [97]
          inode_table := (List.replicate 1024 none).set 0 (some (file_inode "a" 1 [0])) },
       none) := by
  have hwl : write_loop (init_fs ser).bitmap (init_fs ser).disk [97] []
      = ((List.replicate 65536 0).set 0 1, write_disk (init_fs ser).disk 0 [97], [0], true) := by
    rw [init_fs_bitmap]
    exact write_loop_97 _
  rw [create_file_eq (init_ffi ser) hwl]
  rfl

theorem createA_table (ser : Pickler) :
    (create_file ser "a" [97] (init_fs ser)).1.inode_table
      = some (file_inode "a" 1 [0]) :: List.replicate 1023 none := by
  rw [createA_eq]
  simp only [save_disk]
  rw [set_zero_replicate (by decide)]

theorem createA_disk_zero (ser : Pickler) (hser : ∀ m : Metadata, ∃ t, ser m = 128 :: t) :
    (create_file ser "a" [97] (init_fs ser)).1.disk 0 = 128 := by
  rw [createA_eq]
  obtain ⟨t, ht⟩ := hser ((List.replicate 65536 0).set 0 1,
    (List.replicate 1024 none).set 0 (some (file_inode "a" 1 [0])))
  show write_disk (write_disk (init_fs ser).disk 0 [97]) 0
      (ser ((List.replicate 65536 0).set 0 1,
            (List.replicate 1024 none).set 0 (some (file_inode "a" 1 [0])))) 0 = 128
  rw [ht, write_disk]
  simp

theorem read_a_eq_disk_zero {fs : FS}
    (htab : fs.inode_table = some (file_inode "a" 1 [0]) :: List.replicate 1023 none) :
    read_file "a" fs = Except.ok [fs.disk 0] := by
  have hfind : find_by (fun n => n.name == "a" && n.type == "file") fs.inode_table
      = some (0, file_inode "a" 1 [0]) := by
    rw [htab]
    exact find_by_cons_some_of_true _ (by decide)
  rw [read_file_found hfind]
  rw [show (file_inode "a" 1 [0]).blocks = [0] from rfl]
  rw [show (file_inode "a" 1 [0]).size = 1 from rfl]
  rw [read_blocks_single]
  rw [show 0 * block_size = 0 from rfl]

/-! ### Claim C3 — read does not return the written bytes -/

/-- C3: the claim says every file written then read returns exactly the
written bytes.  It fails already for a one-byte file on a fresh disk: the
first data block is block 0, whose image offset 0 is also where `save_disk`
pickles the metadata, so the `save_disk` at the end of `create_file`
overwrites the file's content; `read_file` then returns the first pickle
byte `0x80 = 128` instead of the written byte `97`.  (The length half of the
claim does hold: the result has exactly `size = 1` byte.) -/
theorem c3_read_returns_clobbered_bytes (ser : Pickler)
    (hser : ∀ m : Metadata, ∃ t, ser m = 128 :: t) :
    read_file "a" (create_file ser "a" [97] (init_fs ser)).1 = Except.ok [128] ∧
    read_file "a" (create_file ser "a" [97] (init_fs ser)).1 ≠ Except.ok [97] ∧
    (∀ res : List Nat,
      read_file "a" (create_file ser "a" [97] (init_fs ser)).1 = Except.ok res →
        res.length = (file_inode "a" 1 [0]).size) := by
  have hread : read_file "a" (create_file ser "a" [97] (init_fs ser)).1
      = Except.ok [(create_file ser "a" [97] (init_fs ser)).1.disk 0] :=
    read_a_eq_disk_zero (createA_table ser)
  have hzero := createA_disk_zero ser hser
  refine ⟨?_, ?_, ?_⟩
  · rw [hread, hzero]
  · rw [hread, hzero]
    simp
  · intro res hres
    rw [hread, hzero] at hres
    simp only [Except.ok.injEq] at hres
    subst hres
    rfl

theorem c3_read_returns_clobbered_bytes_witness :
    read_file "a" (create_file triv_ser "a" [97] (init_fs triv_ser)).1 = Except.ok [128] ∧
    read_file "a" (create_file triv_ser "a" [97] (init_fs triv_ser)).1 ≠ Except.ok [97] :=
  ⟨(c3_read_returns_clobbered_bytes triv_ser (fun _ => ⟨[5], rfl⟩)).1,
   (c3_read_returns_clobbered_bytes triv_ser (fun _ => ⟨[5], rfl⟩)).2.1⟩

/-! ### Claim C1 — save/load round-trip and region disjointness -/

/-- C1: the claim says `save()` then `load()` on a fresh instance reproduces
the tree, contents and permissions, because the metadata region and the data
region are disjoint.  In the code both regions start at image offset 0:
`save_disk` pickles the metadata at offset 0 while block 0's data also lives
at offset 0.  Even granting `pickle.load` a perfect inverse of `pickle.dump`
(the reloaded instance below receives exactly the saved metadata, so tree
and permission bits do round-trip), the flush has already overwritten the
file's data: the reloaded instance reads back the pickle marker byte `128`,
not the written byte `97`. -/
theorem c1_metadata_region_overlaps_data (ser : Pickler)
    (hser : ∀ m : Metadata, ∃ t, ser m = 128 :: t) :
    (fs_init ser true
        (some ((create_file ser "a" [97] (init_fs ser)).1.bitmap,
               (create_file ser "a" [97] (init_fs ser)).1.inode_table))
        ((create_file ser "a" [97] (init_fs ser)).1.disk)).1.inode_table
      = (create_file ser "a" [97] (init_fs ser)).1.inode_table ∧
    (fs_init ser true
        (some ((create_file ser "a" [97] (init_fs ser)).1.bitmap,
               (create_file ser "a" [97] (init_fs ser)).1.inode_table))
        ((create_file ser "a" [97] (init_fs ser)).1.disk)).1.bitmap
      = (create_file ser "a" [97] (init_fs ser)).1.bitmap ∧
    (create_file ser "a" [97] (init_fs ser)).1.disk 0 = 128 ∧
    read_file "a"
        (fs_init ser true
          (some ((create_file ser "a" [97] (init_fs ser)).1.bitmap,
                 (create_file ser "a" [97] (init_fs ser)).1.inode_table))
          ((create_file ser "a" [97] (init_fs ser)).1.disk)).1
      = Except.ok [128] ∧
    (Except.ok [128] : Except Err (List Nat)) ≠ Except.ok [97] := by
  refine ⟨rfl, rfl, createA_disk_zero ser hser, ?_, by simp⟩
  have hread : read_file "a"
      (fs_init ser true
        (some ((create_file ser "a" [97] (init_fs ser)).1.bitmap,
               (create_file ser "a" [97] (init_fs ser)).1.inode_table))
        ((create_file ser "a" [97] (init_fs ser)).1.disk)).1
      = Except.ok [(create_file ser "a" [97] (init_fs ser)).1.disk 0] :=
    read_a_eq_disk_zero (createA_table ser)
  rw [hread, createA_disk_zero ser hser]

theorem c1_metadata_region_overlaps_data_witness :
    (create_file triv_ser "a" [97] (init_fs triv_ser)).1.disk 0 = 128 ∧
    read_file "a"
        (fs_init triv_ser true
          (some ((create_file triv_ser "a" [97] (init_fs triv_ser)).1.bitmap,
                 (create_file triv_ser "a" [97] (init_fs triv_ser)).1.inode_table))
          ((create_file triv_ser "a" [97] (init_fs triv_ser)).1.disk)).1
      = Except.ok [128] :=
  ⟨(c1_metadata_region_overlaps_data triv_ser (fun _ => ⟨[5], rfl⟩)).2.2.1,
   (c1_metadata_region_overlaps_data triv_ser (fun _ => ⟨[5], rfl⟩)).2.2.2.1⟩

/-! ### Block accounting: lemmas about `all_blocks` -/

theorem all_blocks_nil : all_blocks [] = [] := rfl

theorem all_blocks_cons (o : Option Inode) (tab : List (Option Inode)) :
    all_blocks (o :: tab) = inode_blocks o ++ all_blocks tab := by
  simp [all_blocks]

theorem all_blocks_replicate_none (k : Nat) :
    all_blocks (List.replicate k none) = [] := by
  induction k with
  | zero => rfl
  | succ k ih => simp [List.replicate_succ, all_blocks_cons, ih, inode_blocks]

theorem all_blocks_set {tab : List (Option Inode)} {i : Nat} (x : Option Inode)
    (h : i < tab.length) :
    all_blocks (tab.set i x)
      = all_blocks (tab.take i) ++ (inode_blocks x ++ all_blocks (tab.drop (i + 1))) := by
  induction tab generalizing i with
  | nil => simp at h
  | cons o tab ih =>
    cases i with
    | zero => simp [all_blocks_cons, all_blocks_nil]
    | succ i =>
      simp only [List.set_cons_succ, List.take_succ_cons, List.drop_succ_cons,
        all_blocks_cons, List.append_assoc]
      rw [ih (by simpa using h)]

theorem all_blocks_decomp {tab : List (Option Inode)} {i : Nat} {o : Option Inode}
    (h : tab[i]? = some o) :
    all_blocks tab
      = all_blocks (tab.take i) ++ (inode_blocks o ++ all_blocks (tab.drop (i + 1))) := by
  induction tab generalizing i with
  | nil => simp at h
  | cons o' tab ih =>
    cases i with
    | zero =>
      simp only [List.getElem?_cons_zero, Option.some.injEq] at h
      subst h
      simp [all_blocks_cons, all_blocks_nil]
    | succ i =>
      simp only [List.getElem?_cons_succ] at h
      simp only [List.take_succ_cons, List.drop_succ_cons, all_blocks_cons, List.append_assoc]
      rw [ih h]

theorem perm_extract {α : Type} (A C B : List α) :
    (A ++ (C ++ B)).Perm (C ++ (A ++ B)) := by
  refine List.perm_append_comm.trans ?_
  rw [List.append_assoc]
  exact List.Perm.append_left C List.perm_append_comm

/-! ### Soundness of the content-writing loop -/

theorem write_loop_sound (content : List Nat) (bm : List Nat) (d : Nat → Nat)
    (acc : List Nat) :
    ∃ new bm2 d2 ok, write_loop bm d content acc = (bm2, d2, acc ++ new, ok) ∧
      new.Nodup ∧
      (∀ b ∈ new, bm.getD b 0 = 0 ∧ b < bm.length) ∧
      bm2.length = bm.length ∧
      (∀ j, bm2.getD j 0 = if j ∈ new then 1 else bm.getD j 0) := by
  induction bm, d, content, acc using write_loop.induct with
  | case1 bm d blocks =>
      exact ⟨[], bm, d, true, by simp [write_loop_nil], by simp, by simp, rfl, by simp⟩
  | case2 bm d blocks x rest hff =>
      exact ⟨[], bm, d, false, by simp [write_loop_cons_none _ _ _ _ hff], by simp, by simp,
        rfl, by simp⟩
  | case3 bm d blocks x rest i hff ih =>
      obtain ⟨new, bm2, d2, ok, heq, hnodup, hfresh, hlen, hval⟩ := ih
      have hilt : i < bm.length := by
        have := find_free_some hff
        exact (List.getElem?_eq_some.1 this).1
      have hi0 : bm.getD i 0 = 0 := by
        rw [List.getD_eq_getElem?_getD, find_free_some hff]
        rfl
      have hinot : i ∉ new := by
        intro hmem
        have h1 := (hfresh i hmem).1
        rw [getD_set] at h1
        simp [hilt] at h1
      refine ⟨i :: new, bm2, d2, ok, ?_, ?_, ?_, ?_, ?_⟩
      · rw [write_loop_cons_some d x rest blocks hff, heq]
        simp
      · exact List.nodup_cons.2 ⟨hinot, hnodup⟩
      · intro b hb
        rcases List.mem_cons.1 hb with rfl | hb2
        · exact ⟨hi0, hilt⟩
        · obtain ⟨hb0, hblt⟩ := hfresh b hb2
          rw [getD_set] at hb0
          by_cases hbi : i = b
          · subst hbi
            simp [hilt] at hb0
          · rw [if_neg (fun h => hbi h.1)] at hb0
            exact ⟨hb0, by simpa using hblt⟩
      · rw [hlen, List.length_set]
      · intro j
        rw [hval j]
        by_cases hji : j = i
        · subst hji
          rw [if_neg hinot, if_pos (List.mem_cons_self j new)]
          rw [getD_set]
          simp [hilt]
        · have hjc : (j ∈ i :: new) ↔ (j ∈ new) := by
            simp [List.mem_cons, hji]
          by_cases hjn : j ∈ new
          · rw [if_pos hjn, if_pos (hjc.2 hjn)]
          · rw [if_neg hjn, if_neg (fun h => hjn (hjc.1 h))]
            have hij : ¬(i = j) := fun h => hji h.symm
            rw [getD_set]
            simp [hij]

/-! ### How each table/bitmap update transforms the accounting invariant -/

theorem foldl_free_length (bl : List Nat) (bm : List Nat) :
    (bl.foldl free_block bm).length = bm.length := by
  induction bl generalizing bm with
  | nil => rfl
  | cons a bl ih =>
    rw [List.foldl_cons]
    rw [ih]
    simp [free_block]

theorem getD_set_zero_self (bm : List Nat) (a : Nat) : (bm.set a 0).getD a 0 = 0 := by
  rw [getD_set]
  by_cases h : a < bm.length
  · simp [h]
  · rw [if_neg (fun hc => h hc.2)]
    rw [List.getD_eq_getElem?_getD, List.getElem?_eq_none (by omega)]
    rfl

theorem foldl_free_getD (bl : List Nat) (bm : List Nat) (b : Nat) :
    (bl.foldl free_block bm).getD b 0 = if b ∈ bl then 0 else bm.getD b 0 := by
  induction bl generalizing bm with
  | nil => simp
  | cons a bl ih =>
    rw [List.foldl_cons, ih]
    by_cases hbbl : b ∈ bl
    · simp [hbbl]
    · rw [if_neg hbbl]
      by_cases hba : b = a
      · subst hba
        rw [if_pos (List.mem_cons_self b bl)]
        exact getD_set_zero_self bm b
      · rw [if_neg (by simp [hba, hbbl])]
        rw [free_block, getD_set]
        rw [if_neg (fun h => hba h.1.symm)]

theorem dir_ok_set {tab : List (Option Inode)} {i : Nat} {x : Option Inode}
    (hd : dir_ok tab)
    (hx : ∀ n : Inode, x = some n → n.type = "directory" →
      n.contents = some [] ∧ n.blocks = []) :
    dir_ok (tab.set i x) := by
  intro n hn ht
  rcases List.mem_or_eq_of_mem_set hn with hmem | heq
  · exact hd n hmem ht
  · exact hx n heq.symm ht

theorem block_ok_create {bm bm2 : List Nat} {tab : List (Option Inode)} {i : Nat}
    {new : List Nat} {ino : Inode}
    (hok : block_ok bm tab) (hi : tab[i]? = some none)
    (hnodup : new.Nodup)
    (hfresh : ∀ b ∈ new, bm.getD b 0 = 0 ∧ b < bm.length)
    (hlen2 : bm2.length = bm.length)
    (hval : ∀ j, bm2.getD j 0 = if j ∈ new then 1 else bm.getD j 0)
    (hblocks : ino.blocks = new) :
    block_ok bm2 (tab.set i (some ino)) := by
  obtain ⟨hL, hB, hbij, hnd⟩ := hok
  have hilt : i < tab.length := (List.getElem?_eq_some.1 hi).1
  have hold : all_blocks tab
      = all_blocks (tab.take i) ++ all_blocks (tab.drop (i + 1)) := by
    have h := all_blocks_decomp hi
    simpa [inode_blocks] using h
  have hnew : all_blocks (tab.set i (some ino))
      = all_blocks (tab.take i) ++ (new ++ all_blocks (tab.drop (i + 1))) := by
    rw [all_blocks_set _ hilt]
    simp [inode_blocks, hblocks]
  have hfresh_not : ∀ b ∈ new, b ∉ all_blocks tab := by
    intro b hb hmem
    have hlt : b < num_blocks := hB b hmem
    have h1 := (hbij b hlt).2 hmem
    rw [(hfresh b hb).1] at h1
    omega
  refine ⟨by rw [hlen2, hL], ?_, ?_, ?_⟩
  · intro b hb
    rw [hnew] at hb
    rcases List.mem_append.1 hb with hA | hb2
    · exact hB b (by rw [hold]; exact List.mem_append.2 (Or.inl hA))
    rcases List.mem_append.1 hb2 with hN | hBm
    · rw [← hL]
      exact (hfresh b hN).2
    · exact hB b (by rw [hold]; exact List.mem_append.2 (Or.inr hBm))
  · intro b hblt
    rw [hnew, hval b]
    by_cases hbn : b ∈ new
    · simp [hbn]
    · rw [if_neg hbn]
      have hb2 := hbij b hblt
      rw [hold] at hb2
      constructor
      · intro h1
        have h3 := hb2.1 h1
        simp only [List.mem_append] at h3 ⊢
        tauto
      · intro h3
        apply hb2.2
        simp only [List.mem_append] at h3 ⊢
        tauto
  · rw [hnew]
    have hperm := perm_extract (all_blocks (tab.take i)) new (all_blocks (tab.drop (i + 1)))
    rw [hperm.nodup_iff]
    rw [List.nodup_append]
    refine ⟨hnodup, by rw [← hold]; exact hnd, ?_⟩
    intro b hb hbmem
    exact hfresh_not b hb (by rw [hold]; exact hbmem)

theorem block_ok_delete {bm : List Nat} {tab : List (Option Inode)} {i : Nat} {ino : Inode}
    (hok : block_ok bm tab) (hi : tab[i]? = some (some ino)) :
    block_ok (ino.blocks.foldl free_block bm) (tab.set i none) := by
  obtain ⟨hL, hB, hbij, hnd⟩ := hok
  have hilt : i < tab.length := (List.getElem?_eq_some.1 hi).1
  have hold : all_blocks tab
      = all_blocks (tab.take i) ++ (ino.blocks ++ all_blocks (tab.drop (i + 1))) := by
    have h := all_blocks_decomp hi
    simpa [inode_blocks] using h
  have hnew : all_blocks (tab.set i none)
      = all_blocks (tab.take i) ++ all_blocks (tab.drop (i + 1)) := by
    rw [all_blocks_set _ hilt]
    simp [inode_blocks]
  have hperm := perm_extract (all_blocks (tab.take i)) ino.blocks
    (all_blocks (tab.drop (i + 1)))
  have hnd2 : (ino.blocks ++
      (all_blocks (tab.take i) ++ all_blocks (tab.drop (i + 1)))).Nodup := by
    rw [← hperm.nodup_iff, ← hold]
    exact hnd
  have hdisj := (List.nodup_append.1 hnd2).2.2
  have hndAB := (List.nodup_append.1 hnd2).2.1
  refine ⟨by rw [foldl_free_length, hL], ?_, ?_, ?_⟩
  · intro b hb
    apply hB
    rw [hold]
    rw [hnew] at hb
    simp only [List.mem_append] at hb ⊢
    tauto
  · intro b hblt
    rw [hnew, foldl_free_getD]
    by_cases hbl : b ∈ ino.blocks
    · rw [if_pos hbl]
      constructor
      · omega
      · intro hmem
        rw [← hnew] at hmem
        rw [hnew] at hmem
        exact absurd hmem (hdisj hbl)
    · rw [if_neg hbl]
      have hb2 := hbij b hblt
      rw [hold] at hb2
      constructor
      · intro h1
        have h3 := hb2.1 h1
        simp only [List.mem_append] at h3 ⊢
        tauto
      · intro h3
        apply hb2.2
        simp only [List.mem_append] at h3 ⊢
        tauto
  · rw [hnew]
    exact hndAB

theorem block_ok_set_same_blocks {bm : List Nat} {tab : List (Option Inode)} {i : Nat}
    {ino ino2 : Inode}
    (hok : block_ok bm tab) (hi : tab[i]? = some (some ino))
    (hbl : ino2.blocks = ino.blocks) :
    block_ok bm (tab.set i (some ino2)) := by
  have hilt : i < tab.length := (List.getElem?_eq_some.1 hi).1
  have heq : all_blocks (tab.set i (some ino2)) = all_blocks tab := by
    rw [all_blocks_set _ hilt, all_blocks_decomp hi]
    simp [inode_blocks, hbl]
  obtain ⟨hL, hB, hbij, hnd⟩ := hok
  refine ⟨hL, ?_, ?_, ?_⟩
  · intro b hb
    exact hB b (by rw [← heq]; exact hb)
  · intro b hblt
    rw [heq]
    exact hbij b hblt
  · rw [heq]
    exact hnd

theorem block_ok_remove_empty {bm : List Nat} {tab : List (Option Inode)} {i : Nat}
    {ino : Inode}
    (hok : block_ok bm tab) (hi : tab[i]? = some (some ino)) (hbl : ino.blocks = []) :
    block_ok bm (tab.set i none) := by
  have hilt : i < tab.length := (List.getElem?_eq_some.1 hi).1
  have heq : all_blocks (tab.set i none) = all_blocks tab := by
    rw [all_blocks_set _ hilt, all_blocks_decomp hi]
    simp [inode_blocks, hbl]
  obtain ⟨hL, hB, hbij, hnd⟩ := hok
  refine ⟨hL, ?_, ?_, ?_⟩
  · intro b hb
    exact hB b (by rw [← heq]; exact hb)
  · intro b hblt
    rw [heq]
    exact hbij b hblt
  · rw [heq]
    exact hnd

/-! ### Invariant preservation for every operation -/

theorem num_blocks_eq : num_blocks = 65536 := rfl

theorem create_file_inv (ser : Pickler) (name : String) (c : List Nat) (fs : FS)
    (hInv : Inv fs) (hne : (create_file ser name c fs).2 ≠ some Err.OutOfSpace) :
    Inv (create_file ser name c fs).1 := by
  obtain ⟨hd, hb⟩ := hInv
  cases hfi : find_free_inode fs.inode_table with
  | none =>
    simp only [create_file, hfi]
    exact ⟨hd, hb⟩
  | some i =>
    obtain ⟨new, bm2, d2, ok, heq, hnodup, hfresh, hlen, hval⟩ :=
      write_loop_sound c fs.bitmap fs.disk []
    cases ok with
    | false =>
      exfalso
      apply hne
      rw [create_file_oos hfi heq]
    | true =>
      rw [create_file_eq hfi heq]
      refine ⟨dir_ok_set hd ?_, ?_⟩
      · intro n h1 h2
        injection h1 with h1'
        subst h1'
        simp [file_inode] at h2
      · exact block_ok_create hb (find_free_inode_some hfi) hnodup hfresh hlen hval rfl

theorem delete_file_inv (ser : Pickler) (name : String) (fs : FS) (hInv : Inv fs) :
    Inv (delete_file ser name fs).1 := by
  obtain ⟨hd, hb⟩ := hInv
  cases hfb : find_by (fun n => n.name == name && n.type == "file") fs.inode_table with
  | none =>
    simp only [delete_file, hfb]
    exact ⟨hd, hb⟩
  | some r =>
    simp only [delete_file, hfb]
    exact ⟨dir_ok_set hd (fun n h1 _ => Option.noConfusion h1),
           block_ok_delete hb (find_by_some hfb).1⟩

theorem rename_file_inv (ser : Pickler) (a b : String) (fs : FS) (hInv : Inv fs) :
    Inv (rename_file ser a b fs).1 := by
  obtain ⟨hd, hb⟩ := hInv
  cases hfb : find_by (fun n => n.name == a && n.type == "file") fs.inode_table with
  | none =>
    simp only [rename_file, hfb]
    exact ⟨hd, hb⟩
  | some r =>
    have htype : r.2.type = "file" := by
      have h2 := (find_by_some hfb).2
      simp only [Bool.and_eq_true, beq_iff_eq] at h2
      exact h2.2
    simp only [rename_file, hfb]
    refine ⟨dir_ok_set hd ?_, block_ok_set_same_blocks hb (find_by_some hfb).1 rfl⟩
    intro n h1 h2
    injection h1 with h1'
    subst h1'
    rw [show ({ r.2 with name := b } : Inode).type = r.2.type from rfl, htype] at h2
    exact absurd h2 (by decide)

theorem create_symlink_inv (ser : Pickler) (t l : String) (fs : FS) (hInv : Inv fs) :
    Inv (create_symlink ser t l fs).1 := by
  obtain ⟨hd, hb⟩ := hInv
  cases hfi : find_free_inode fs.inode_table with
  | none =>
    simp only [create_symlink, hfi]
    exact ⟨hd, hb⟩
  | some i =>
    rw [create_symlink_eq hfi]
    refine ⟨?_, ?_⟩
    · show dir_ok (fs.inode_table.set i (some (symlink_inode t l)))
      refine dir_ok_set hd ?_
      intro n h1 h2
      injection h1 with h1'
      subst h1'
      simp [symlink_inode] at h2
    · show block_ok fs.bitmap (fs.inode_table.set i (some (symlink_inode t l)))
      exact block_ok_create hb (find_free_inode_some hfi) (by simp [symlink_inode])
        (by simp [symlink_inode]) rfl (by intro j; simp [symlink_inode]) rfl

theorem create_directory_inv (ser : Pickler) (n : String) (fs : FS) (hInv : Inv fs) :
    Inv (create_directory ser n fs).1 := by
  obtain ⟨hd, hb⟩ := hInv
  cases hfi : find_free_inode fs.inode_table with
  | none =>
    simp only [create_directory, hfi]
    exact ⟨hd, hb⟩
  | some i =>
    rw [create_directory_eq hfi]
    refine ⟨?_, ?_⟩
    · show dir_ok (fs.inode_table.set i (some (dir_inode n)))
      refine dir_ok_set hd ?_
      intro m h1 h2
      injection h1 with h1'
      subst h1'
      exact ⟨rfl, rfl⟩
    · show block_ok fs.bitmap (fs.inode_table.set i (some (dir_inode n)))
      exact block_ok_create hb (find_free_inode_some hfi) (by simp [dir_inode])
        (by simp [dir_inode]) rfl (by intro j; simp [dir_inode]) rfl

theorem remove_directory_inv (ser : Pickler) (name : String) (fs : FS) (hInv : Inv fs) :
    Inv (remove_directory ser name fs).1 := by
  obtain ⟨hd, hb⟩ := hInv
  cases hfb : find_by (fun n => n.name == name && n.type == "directory") fs.inode_table with
  | none =>
    simp only [remove_directory, hfb]
    exact ⟨hd, hb⟩
  | some r =>
    have htype : r.2.type = "directory" := by
      have h2 := (find_by_some hfb).2
      simp only [Bool.and_eq_true, beq_iff_eq] at h2
      exact h2.2
    have hmem : some r.2 ∈ fs.inode_table := List.getElem?_mem (find_by_some hfb).1
    obtain ⟨hcont, hbl⟩ := hd r.2 hmem htype
    by_cases hn : 0 < (r.2.contents.getD []).length
    · simp only [remove_directory, hfb, if_pos hn]
      exact ⟨hd, hb⟩
    · simp only [remove_directory, hfb, if_neg hn]
      exact ⟨dir_ok_set hd (fun n h1 _ => Option.noConfusion h1),
             block_ok_remove_empty hb (find_by_some hfb).1 hbl⟩

theorem change_directory_inv (n : String) (fs : FS) (hInv : Inv fs) :
    Inv (change_directory n fs).1 := by
  rw [change_directory]
  by_cases h1 : n = "."
  · rw [if_pos h1]
    exact hInv
  · rw [if_neg h1]
    by_cases h2 : n = ".."
    · rw [if_pos h2]
      by_cases h3 : fs.cwd = 0
      · rw [if_pos h3]
        exact hInv
      · rw [if_neg h3]
        exact hInv
    · rw [if_neg h2]
      cases hfb : find_by (fun m => m.name == n && m.type == "directory") fs.inode_table with
      | none => exact hInv
      | some r => exact hInv

theorem copy_file_inv (ser : Pickler) (s t : String) (fs : FS) (hInv : Inv fs)
    (hne : (copy_file ser s t fs).2 ≠ some Err.OutOfSpace) :
    Inv (copy_file ser s t fs).1 := by
  rw [copy_file] at hne ⊢
  cases hr : read_file s fs with
  | error e => exact hInv
  | ok content =>
    rw [hr] at hne
    exact create_file_inv ser t content fs hInv hne

theorem read_op_fst (ser : Pickler) (n : String) (fs : FS) :
    (apply_op ser (Op.readFile n) fs).1 = fs := by
  simp only [apply_op]
  cases read_file n fs <;> rfl

theorem list_op_fst (ser : Pickler) (n : String) (fs : FS) :
    (apply_op ser (Op.listDirectory n) fs).1 = fs := by
  simp only [apply_op]
  cases list_directory n fs <;> rfl

theorem inv_step (ser : Pickler) (op : Op) (fs : FS) (hInv : Inv fs)
    (hne : (apply_op ser op fs).2 ≠ some Err.OutOfSpace) :
    Inv (apply_op ser op fs).1 := by
  cases op with
  | createFile n c => exact create_file_inv ser n c fs hInv hne
  | deleteFile n => exact delete_file_inv ser n fs hInv
  | readFile n =>
    rw [read_op_fst]
    exact hInv
  | copyFile s t => exact copy_file_inv ser s t fs hInv hne
  | renameFile a b => exact rename_file_inv ser a b fs hInv
  | createSymlink t l => exact create_symlink_inv ser t l fs hInv
  | createDirectory n => exact create_directory_inv ser n fs hInv
  | listDirectory n =>
    rw [list_op_fst]
    exact hInv
  | removeDirectory n => exact remove_directory_inv ser n fs hInv
  | changeDirectory n => exact change_directory_inv n fs hInv

theorem inv_init (ser : Pickler) : Inv (init_fs ser) := by
  constructor
  · intro n hn ht
    rw [init_fs_table] at hn
    exact absurd hn (fun h => not_some_mem_replicate h)
  · refine ⟨?_, ?_, ?_, ?_⟩
    · rw [init_fs_bitmap, List.length_replicate]
      rfl
    · intro b hb
      rw [init_fs_table, all_blocks_replicate_none] at hb
      simp at hb
    · intro b hblt
      rw [init_fs_table, all_blocks_replicate_none, init_fs_bitmap]
      rw [getD_replicate (show b < 65536 by rw [num_blocks_eq] at hblt; omega)]
      simp
    · rw [init_fs_table, all_blocks_replicate_none]
      exact List.nodup_nil

/-! ### Claim C7 — block accounting -/

/-- C7 amended: in every state reachable from a fresh format without any
operation failing with `OutOfSpace`, the bitmap marks exactly the blocks
referenced by live inodes, with no orphan and no double reference.  (The
claim as stated, which also covers states reached through an `OutOfSpace`
failure, is refuted by the counterexample: a `create_file` interrupted by
`OutOfSpace` leaks the blocks it had already allocated.)  `OutOfInodes`
failures are harmless and are covered here: they occur before any block is
touched. -/
theorem c7_block_accounting_exact (ser : Pickler) (fs : FS)
    (h : ReachableGood ser fs) : block_ok fs.bitmap fs.inode_table := by
  have hInv : Inv fs := by
    induction h with
    | refl => exact inv_init ser
    | tail hsteps hstep ih =>
      obtain ⟨op, heq, hne⟩ := hstep
      rw [← heq]
      exact inv_step ser op _ ih hne
  exact hInv.2

theorem c7_block_accounting_exact_witness :
    block_ok (init_fs triv_ser).bitmap (init_fs triv_ser).inode_table :=
  c7_block_accounting_exact triv_ser (init_fs triv_ser) Relation.ReflTransGen.refl

/-! ### Directory records stay empty in every reachable state -/

theorem create_file_dir_ok (ser : Pickler) (n : String) (c : List Nat) (fs : FS)
    (hd : dir_ok fs.inode_table) : dir_ok ((create_file ser n c fs).1.inode_table) := by
  cases hfi : find_free_inode fs.inode_table with
  | none =>
    simp only [create_file, hfi]
    exact hd
  | some i =>
    obtain ⟨new, bm2, d2, ok, heq, h1, h2, h3, h4⟩ := write_loop_sound c fs.bitmap fs.disk []
    cases ok with
    | false =>
      rw [create_file_oos hfi heq]
      exact hd
    | true =>
      rw [create_file_eq hfi heq]
      show dir_ok (fs.inode_table.set i (some (file_inode n c.length ([] ++ new))))
      refine dir_ok_set hd ?_
      intro m hm1 hm2
      injection hm1 with hm1'
      subst hm1'
      simp [file_inode] at hm2

theorem step_dir_ok (ser : Pickler) (op : Op) (fs : FS) (hd : dir_ok fs.inode_table) :
    dir_ok ((apply_op ser op fs).1.inode_table) := by
  cases op with
  | createFile n c => exact create_file_dir_ok ser n c fs hd
  | deleteFile n =>
    cases hfb : find_by (fun m => m.name == n && m.type == "file") fs.inode_table with
    | none =>
      simp only [apply_op, delete_file, hfb]
      exact hd
    | some r =>
      simp only [apply_op, delete_file, hfb]
      exact dir_ok_set hd (fun m hm1 _ => Option.noConfusion hm1)
  | readFile n =>
    rw [read_op_fst]
    exact hd
  | copyFile s t =>
    show dir_ok ((copy_file ser s t fs).1.inode_table)
    rw [copy_file]
    cases hr : read_file s fs with
    | error e => exact hd
    | ok content => exact create_file_dir_ok ser t content fs hd
  | renameFile a b =>
    cases hfb : find_by (fun m => m.name == a && m.type == "file") fs.inode_table with
    | none =>
      simp only [apply_op, rename_file, hfb]
      exact hd
    | some r =>
      have htype : r.2.type = "file" := by
        have hp := (find_by_some hfb).2
        simp only [Bool.and_eq_true, beq_iff_eq] at hp
        exact hp.2
      simp only [apply_op, rename_file, hfb]
      refine dir_ok_set hd ?_
      intro m hm1 hm2
      injection hm1 with hm1'
      subst hm1'
      rw [show ({ r.2 with name := b } : Inode).type = r.2.type from rfl, htype] at hm2
      exact absurd hm2 (by decide)
  | createSymlink t l =>
    cases hfi : find_free_inode fs.inode_table with
    | none =>
      simp only [apply_op, create_symlink, hfi]
      exact hd
    | some i =>
      show dir_ok ((create_symlink ser t l fs).1.inode_table)
      rw [create_symlink_eq hfi]
      show dir_ok (fs.inode_table.set i (some (symlink_inode t l)))
      refine dir_ok_set hd ?_
      intro m hm1 hm2
      injection hm1 with hm1'
      subst hm1'
      simp [symlink_inode] at hm2
  | createDirectory n =>
    cases hfi : find_free_inode fs.inode_table with
    | none =>
      simp only [apply_op, create_directory, hfi]
      exact hd
    | some i =>
      show dir_ok ((create_directory ser n fs).1.inode_table)
      rw [create_directory_eq hfi]
      show dir_ok (fs.inode_table.set i (some (dir_inode n)))
      refine dir_ok_set hd ?_
      intro m hm1 hm2
      injection hm1 with hm1'
      subst hm1'
      exact ⟨rfl, rfl⟩
  | listDirectory n =>
    rw [list_op_fst]
    exact hd
  | removeDirectory n =>
    cases hfb : find_by (fun m => m.name == n && m.type == "directory") fs.inode_table with
    | none =>
      simp only [apply_op, remove_directory, hfb]
      exact hd
    | some r =>
      by_cases hn : 0 < (r.2.contents.getD []).length
      · simp only [apply_op, remove_directory, hfb, if_pos hn]
        exact hd
      · simp only [apply_op, remove_directory, hfb, if_neg hn]
        exact dir_ok_set hd (fun m hm1 _ => Option.noConfusion hm1)
  | changeDirectory n =>
    show dir_ok ((change_directory n fs).1.inode_table)
    rw [change_directory]
    by_cases h1 : n = "."
    · rw [if_pos h1]
      exact hd
    · rw [if_neg h1]
      by_cases h2 : n = ".."
      · rw [if_pos h2]
        by_cases h3 : fs.cwd = 0
        · rw [if_pos h3]
          exact hd
        · rw [if_neg h3]
          exact hd
      · rw [if_neg h2]
        cases hfb : find_by (fun m => m.name == n && m.type == "directory") fs.inode_table with
        | none => exact hd
        | some r => exact hd

theorem reachable_dir_ok (ser : Pickler) (fs : FS) (h : Reachable ser fs) :
    dir_ok fs.inode_table := by
  induction h with
  | refl => exact (inv_init ser).1
  | tail hsteps hstep ih =>
    obtain ⟨op, heq⟩ := hstep
    rw [← heq]
    exact step_dir_ok ser op _ ih

/-! ### Claim C4 — removing a directory -/

/-- C4: in every reachable state, `remove_directory` on an existing directory
fails with `DirectoryNotEmpty` exactly when the directory's child list has
entries besides "." and "..", and otherwise frees the inode slot.  In this
code the biconditional holds degenerately: nothing ever links a child into a
directory's `contents` (and "." and ".." are never stored), so every live
directory's child list is empty, both sides of the iff are false, and the
removal always succeeds, clearing the slot. -/
theorem c4_remove_directory_empty_iff (ser : Pickler) (fs : FS) (name : String)
    (r : Nat × Inode) (hreach : Reachable ser fs)
    (hfind : find_by (fun n => n.name == name && n.type == "directory") fs.inode_table
      = some r) :
    ((remove_directory ser name fs).2 = some Err.DirectoryNotEmpty ↔
        ∃ e ∈ r.2.contents.getD [], e ≠ "." ∧ e ≠ "..") ∧
    (remove_directory ser name fs).2 = none ∧
    (remove_directory ser name fs).1.inode_table = fs.inode_table.set r.1 none := by
  have hd := reachable_dir_ok ser fs hreach
  have htype : r.2.type = "directory" := by
    have h2 := (find_by_some hfind).2
    simp only [Bool.and_eq_true, beq_iff_eq] at h2
    exact h2.2
  have hmem : some r.2 ∈ fs.inode_table := List.getElem?_mem (find_by_some hfind).1
  obtain ⟨hcont, hbl⟩ := hd r.2 hmem htype
  have hred : remove_directory ser name fs
      = (save_disk ser { fs with inode_table := fs.inode_table.set r.1 none }, none) := by
    simp only [remove_directory, hfind]
    rw [if_neg (by rw [hcont]; simp)]
  refine ⟨?_, ?_, ?_⟩
  · rw [hred]
    constructor
    · intro h
      simp at h
    · intro h
      rw [hcont] at h
      simp at h
  · rw [hred]
  · rw [hred]
    rfl

theorem c4_remove_directory_empty_iff_witness :
    ((remove_directory triv_ser "d"
        (apply_op triv_ser (Op.createDirectory "d") (init_fs triv_ser)).1).2
      = some Err.DirectoryNotEmpty ↔
        ∃ e ∈ (dir_inode "d").contents.getD [], e ≠ "." ∧ e ≠ "..") ∧
    (remove_directory triv_ser "d"
        (apply_op triv_ser (Op.createDirectory "d") (init_fs triv_ser)).1).2 = none ∧
    (remove_directory triv_ser "d"
        (apply_op triv_ser (Op.createDirectory "d") (init_fs triv_ser)).1).1.inode_table
      = ((apply_op triv_ser (Op.createDirectory "d")
          (init_fs triv_ser)).1.inode_table).set 0 none := by
  have hreach : Reachable triv_ser
      (apply_op triv_ser (Op.createDirectory "d") (init_fs triv_ser)).1 :=
    Relation.ReflTransGen.tail Relation.ReflTransGen.refl ⟨Op.createDirectory "d", rfl⟩
  have htab : (apply_op triv_ser (Op.createDirectory "d") (init_fs triv_ser)).1.inode_table
      = some (dir_inode "d") :: List.replicate 1023 none := by
    show (create_directory triv_ser "d" (init_fs triv_ser)).1.inode_table = _
    rw [create_directory_eq (init_ffi triv_ser)]
    simp only [save_disk]
    rw [init_fs_table, set_zero_replicate (by decide)]
  have hfind : find_by (fun n => n.name == "d" && n.type == "directory")
      (apply_op triv_ser (Op.createDirectory "d") (init_fs triv_ser)).1.inode_table
      = some (0, dir_inode "d") := by
    rw [htab]
    exact find_by_cons_some_of_true _ (by decide)
  exact c4_remove_directory_empty_iff triv_ser _ "d" (0, dir_inode "d") hreach hfind

/-! ### Closed form of the writing loop on replicate-shaped bitmaps
(used to drive the system out of space for the C7 counterexample) -/

theorem block_size_eq : block_size = 4096 := rfl

theorem find_free_shape (m j : Nat) :
    find_free (List.replicate m 1 ++ List.replicate (j + 1) 0) = some m := by
  induction m with
  | zero => simp [List.replicate_succ, find_free]
  | succ m ih =>
    rw [List.replicate_succ 1 m, List.cons_append]
    simp [find_free, ih]

theorem set_shape (m j : Nat) :
    (List.replicate m 1 ++ List.replicate (j + 1) 0).set m 1
      = List.replicate (m + 1) 1 ++ List.replicate j 0 := by
  induction m with
  | zero => simp [List.replicate_succ]
  | succ m ih =>
    rw [List.replicate_succ 1 m, List.cons_append, List.set_cons_succ, ih]
    simp [List.replicate_succ, List.cons_append]

theorem write_loop_shape (L : Nat) :
    ∀ (m j : Nat) (d : Nat → Nat) (acc : List Nat),
      ∃ d2 : Nat → Nat,
        write_loop (List.replicate m 1 ++ List.replicate j 0) d (List.replicate L 97) acc
          = if (L + 4095) / 4096 ≤ j
            then (List.replicate (m + (L + 4095) / 4096) 1
                    ++ List.replicate (j - (L + 4095) / 4096) 0, d2,
                  acc ++ List.range' m ((L + 4095) / 4096), true)
            else (List.replicate (m + j) 1 ++ List.replicate 0 0, d2,
                  acc ++ List.range' m j, false) := by
  induction L using Nat.strong_induction_on with
  | _ L ih =>
    intro m j d acc
    cases L with
    | zero =>
      refine ⟨d, ?_⟩
      rw [show List.replicate 0 97 = ([] : List Nat) from rfl, write_loop_nil]
      rw [if_pos (by omega)]
      simp
    | succ L' =>
      cases j with
      | zero =>
        refine ⟨d, ?_⟩
        rw [List.replicate_succ,
          write_loop_cons_none _ _ _ _ (by
            rw [show List.replicate 0 (0 : Nat) = ([] : List Nat) from rfl, List.append_nil]
            exact find_free_replicate_one m)]
        rw [if_neg (by omega)]
        simp
      | succ j' =>
        obtain ⟨d2, hrec⟩ := ih (L' + 1 - block_size) (by rw [block_size_eq]; omega) (m + 1) j'
          (write_disk d (m * block_size) ((List.replicate (L' + 1) 97).take block_size))
          (acc ++ [m])
        refine ⟨d2, ?_⟩
        rw [List.replicate_succ 97 L',
          write_loop_cons_some _ _ _ _ (find_free_shape m j')]
        rw [← List.replicate_succ 97 L']
        rw [set_shape m j']
        rw [List.drop_replicate]
        rw [hrec]
        rw [block_size_eq]
        have hq : (L' + 1 + 4095) / 4096 = (L' + 1 - 4096 + 4095) / 4096 + 1 := by omega
        by_cases hc : (L' + 1 - 4096 + 4095) / 4096 ≤ j'
        · rw [if_pos hc, if_pos (by omega)]
          rw [hq]
          rw [show m + ((L' + 1 - 4096 + 4095) / 4096 + 1)
              = m + 1 + (L' + 1 - 4096 + 4095) / 4096 from by omega]
          rw [show j' + 1 - ((L' + 1 - 4096 + 4095) / 4096 + 1)
              = j' - (L' + 1 - 4096 + 4095) / 4096 from by omega]
          rw [List.range'_succ]
          rw [show acc ++ (m :: List.range' (m + 1) ((L' + 1 - 4096 + 4095) / 4096))
              = (acc ++ [m]) ++ List.range' (m + 1) ((L' + 1 - 4096 + 4095) / 4096)
              from by simp]
        · rw [if_neg hc, if_neg (by omega)]
          rw [show m + (j' + 1) = m + 1 + j' from by omega]
          rw [List.range'_succ]
          rw [show acc ++ (m :: List.range' (m + 1) j')
              = (acc ++ [m]) ++ List.range' (m + 1) j' from by simp]

/-! ### The OutOfSpace leak trace -/

theorem leak_fs1_parts :
    (apply_op triv_ser (Op.createFile "a" (List.replicate 268431360 97))
        (init_fs triv_ser)).1.bitmap
      = List.replicate 65535 1 ++ List.replicate 1 0 ∧
    (apply_op triv_ser (Op.createFile "a" (List.replicate 268431360 97))
        (init_fs triv_ser)).1.inode_table
      = some (file_inode "a" (List.replicate 268431360 97).length (List.range' 0 65535))
          :: List.replicate 1023 none := by
  obtain ⟨d2, hwl⟩ := write_loop_shape 268431360 0 65536 (init_fs triv_ser).disk []
  rw [if_pos (by norm_num)] at hwl
  rw [show ((268431360 : Nat) + 4095) / 4096 = 65535 from by norm_num] at hwl
  simp only [List.replicate_zero, List.nil_append, Nat.zero_add] at hwl
  rw [show (65536 : Nat) - 65535 = 1 from rfl] at hwl
  obtain ⟨hb, ht, _⟩ := create_file_eq_parts triv_ser (init_ffi triv_ser) hwl
  refine ⟨hb, ht.trans ?_⟩
  rw [init_fs_table, set_zero_replicate (by decide)]

theorem leak_fs2_parts :
    (apply_op triv_ser (Op.createFile "b" (List.replicate 8192 97))
        (apply_op triv_ser (Op.createFile "a" (List.replicate 268431360 97))
          (init_fs triv_ser)).1).1.bitmap = List.replicate 65536 1 ∧
    (apply_op triv_ser (Op.createFile "b" (List.replicate 8192 97))
        (apply_op triv_ser (Op.createFile "a" (List.replicate 268431360 97))
          (init_fs triv_ser)).1).1.inode_table
      = some (file_inode "a" (List.replicate 268431360 97).length (List.range' 0 65535))
          :: List.replicate 1023 none ∧
    (apply_op triv_ser (Op.createFile "b" (List.replicate 8192 97))
        (apply_op triv_ser (Op.createFile "a" (List.replicate 268431360 97))
          (init_fs triv_ser)).1).2 = some Err.OutOfSpace := by
  obtain ⟨hbm1, htab1⟩ := leak_fs1_parts
  have hffi2 : find_free_inode
      (apply_op triv_ser (Op.createFile "a" (List.replicate 268431360 97))
        (init_fs triv_ser)).1.inode_table = some 1 := by
    rw [htab1]
    simp [find_free_inode, find_free_inode_replicate (show (0 : Nat) < 1023 by decide)]
  obtain ⟨d3, hwl2⟩ := write_loop_shape 8192 65535 1
    (apply_op triv_ser (Op.createFile "a" (List.replicate 268431360 97))
      (init_fs triv_ser)).1.disk []
  rw [if_neg (by norm_num)] at hwl2
  simp only [List.replicate_zero, List.append_nil, List.nil_append] at hwl2
  rw [show (65535 : Nat) + 1 = 65536 from rfl] at hwl2
  rw [← hbm1] at hwl2
  obtain ⟨hb, ht, he⟩ := create_file_oos_parts triv_ser hffi2 hwl2
  exact ⟨hb, ht.trans htab1, he⟩

/-- C7 counterexample: fill all but one block with one huge file, then ask
for a two-block file.  The second `create_file` allocates block 65535, then
fails with `OutOfSpace`; the exception escapes with the bitmap already
mutated, so the reachable state that results marks block 65535 occupied
although no live inode references it — the claimed equality between the
bitmap and the union of live block lists is false in this state, which the
claim explicitly covers ("including states reached when an operation fails
with OutOfSpace"). -/
theorem c7_outofspace_leak_counterexample :
    Reachable triv_ser
      (apply_op triv_ser (Op.createFile "b" (List.replicate 8192 97))
        (apply_op triv_ser (Op.createFile "a" (List.replicate 268431360 97))
          (init_fs triv_ser)).1).1 ∧
    (apply_op triv_ser (Op.createFile "b" (List.replicate 8192 97))
        (apply_op triv_ser (Op.createFile "a" (List.replicate 268431360 97))
          (init_fs triv_ser)).1).2 = some Err.OutOfSpace ∧
    ¬ block_ok
        (apply_op triv_ser (Op.createFile "b" (List.replicate 8192 97))
          (apply_op triv_ser (Op.createFile "a" (List.replicate 268431360 97))
            (init_fs triv_ser)).1).1.bitmap
        (apply_op triv_ser (Op.createFile "b" (List.replicate 8192 97))
          (apply_op triv_ser (Op.createFile "a" (List.replicate 268431360 97))
            (init_fs triv_ser)).1).1.inode_table := by
  obtain ⟨hbm2, htab2, herr2⟩ := leak_fs2_parts
  refine ⟨?_, herr2, ?_⟩
  · exact Relation.ReflTransGen.tail
      (Relation.ReflTransGen.tail Relation.ReflTransGen.refl
        ⟨Op.createFile "a" (List.replicate 268431360 97), rfl⟩)
      ⟨Op.createFile "b" (List.replicate 8192 97), rfl⟩
  · intro hok
    obtain ⟨hL, hB, hbij, hnd⟩ := hok
    have h1 : (65535 : Nat) < num_blocks := by
      rw [num_blocks_eq]
      omega
    have h2 := (hbij 65535 h1).1
    rw [hbm2, getD_replicate (by omega)] at h2
    have h3 := h2 rfl
    rw [htab2, all_blocks_cons, all_blocks_replicate_none, List.append_nil] at h3
    rw [show inode_blocks (some (file_inode "a" (List.replicate 268431360 97).length (List.range' 0 65535)))
        = List.range' 0 65535 from rfl] at h3
    rw [List.mem_range'_1] at h3
    omega

end ArchFS
